import Mathlib

/-!
Verification development for the Viz repository.

The repository renders risk-metric charts.  The logic verified here is:

* the metric resolver of src/SGMR_visualizer.py and src/data_visualizer.py
  (class DataVisualizer: _extract_maturity, _extract_currency,
  _convert_maturity_to_months, get_mother_metrics, get_all_related_metrics,
  together with the rule table src/special_metrics_rules.py);
* the index generator of src/html_generator.py
  (HTMLGenerator.generate_index_html and its helpers);
* the control flow of main.py (load_event_dates and the try/except
  structure of main / create_bar_plot / create_time_series_plots).

Python strings are modelled as Lean String, but every operation on them is
carried out on the underlying character list (String.data), because the
character-list operations compute inside the kernel.  Python string
operations used by the code assume ASCII metric names (all names produced
by the generators are ASCII); the models below implement the ASCII
semantics of str.lower, the re module character classes \d, [A-Z], [DWMY],
and lexicographic string comparison by code point.
-/

/-- ASCII semantics of Python str.lower on a character list. -/
def lower (l : List Char) : List Char := l.map Char.toLower

/-- listStarts l p is true when p is a starting segment of l
(the semantics of Python str.startswith and of an anchored regex). -/
def listStarts : List Char → List Char → Bool
  | _, [] => true
  | [], _ :: _ => false
  | a :: as, b :: bs => a = b && listStarts as bs

/-- listHas l p is true when p occurs contiguously inside l
(the semantics of the Python `in` operator on strings and of an
unanchored literal regex search). -/
def listHas (l p : List Char) : Bool :=
  match l with
  | [] => p.isEmpty
  | _ :: rest => listStarts l p || listHas rest p

/-- Runs f over a list left to right, stopping at the first failure.
Models a Python loop (list comprehension) in which each step can raise:
the result is none exactly when some step raises. -/
def seqOption {α β : Type} (f : α → Option β) : List α → Option (List β)
  | [] => some []
  | a :: l =>
    match f a with
    | none => none
    | some b => (seqOption f l).map (fun bs => b :: bs)

/-- pdUniqueAux seen l removes from l every element already in seen and every
later duplicate, keeping first occurrences in order. -/
def pdUniqueAux (seen : List String) : List String → List String
  | [] => []
  | x :: xs => if x ∈ seen then pdUniqueAux seen xs else x :: pdUniqueAux (x :: seen) xs

/-- Semantics of pandas Series.unique: the distinct values in order of first
occurrence. -/
def pdUnique (l : List String) : List String := pdUniqueAux [] l

/-- One input record, restricted to the two columns the metric resolver
reads: stranaNodeName and rmRiskMetricName. -/
structure Row where
  stranaNodeName : String
  rmRiskMetricName : String
deriving DecidableEq, Repr

/-- The characters matched by the regex character class [DWMY]. -/
def isTenorUnit (c : Char) : Bool := c = 'D' || c = 'W' || c = 'M' || c = 'Y'

/-- Leftmost match of the regex (\d+[DWMY]) in a character list: the first
maximal ASCII digit run that is immediately followed by one of D, W, M, Y,
returned together with that unit character.  Greedy \d+ cannot give up
characters successfully (every character inside a digit run is a digit, not
a unit), so the match at a digit position exists exactly when the maximal
run from it is followed by a unit. -/
def extractMaturityAux : List Char → Option (List Char)
  | [] => none
  | c :: rest =>
    if c.isDigit then
      match (c :: rest).dropWhile Char.isDigit with
      | u :: _ =>
        if isTenorUnit u then some ((c :: rest).takeWhile Char.isDigit ++ [u])
        else extractMaturityAux rest
      | [] => none
    else extractMaturityAux rest

/-- DataVisualizer._extract_maturity (identical in SGMR_visualizer.py and
data_visualizer.py): re.search of (\d+[DWMY]), returning group 1. -/
def extract_maturity (metric_name : String) : Option (List Char) :=
  extractMaturityAux metric_name.data

/-- Leftmost match of the regex \[([A-Z]{3})\]: the first occurrence of a
bracket, three ASCII uppercase letters and a closing bracket, returning the
three letters. -/
def extractCurrencyAux : List Char → Option (List Char)
  | '[' :: a :: b :: c :: d :: rest =>
    if a.isUpper && b.isUpper && c.isUpper && d = ']' then some [a, b, c]
    else extractCurrencyAux (a :: b :: c :: d :: rest)
  | _ :: rest => extractCurrencyAux rest
  | [] => none

/-- DataVisualizer._extract_currency (identical in both visualizer files):
re.search of \[([A-Z]{3})\], returning group 1. -/
def extract_currency (metric_name : String) : Option (List Char) :=
  extractCurrencyAux metric_name.data

/-- Numeric value of a list of ASCII digits, the semantics of Python
int(...) on the reachable inputs.  (On a string that is not all digits
Python int raises; that case is unreachable here because the argument always
comes from a (\d+[DWMY]) match, and this model returns a junk value.) -/
def digitsVal (l : List Char) : ℕ := l.foldl (fun n c => n * 10 + (c.toNat - '0'.toNat)) 0

/-- DataVisualizer._convert_maturity_to_months.  The source computes a float
number of months from a tenor string: int(value) * 12 for Y, value for M,
value / 4 for W, value / 30 for D, and float inf for an empty string or an
unknown unit.  To keep the sort key computable by the kernel the number of
months is stored scaled by 60 (60 = lcm 4 30), an order- and
equality-preserving change of units of the exact values the source computes:
Y gives 60*(value*12) = 720*value, M gives 60*value, W gives
60*(value/4) = 15*value, D gives 60*(value/30) = 2*value, and the float inf
branches give the top element. -/
def convert_maturity_to_months (maturity : List Char) : WithTop ℕ :=
  if maturity.isEmpty then ⊤
  else
    let value := digitsVal (maturity.dropLast)
    let unit := maturity.getLast!
    if unit = 'Y' then (value * 720 : ℕ)
    else if unit = 'M' then (value * 60 : ℕ)
    else if unit = 'W' then (value * 15 : ℕ)
    else if unit = 'D' then (value * 2 : ℕ)
    else ⊤

/-- Second slot of the Python sort-key tuple returned by sort_key: either a
string (the empty string, a currency code, or the metric name) or the
converted-months number.  Python never compares a number with a string here,
because keys are only compared within a block (equal first components). -/
inductive PyKey2 : Type
  | ofStr : List Char → PyKey2
  | ofNum : WithTop ℕ → PyKey2
deriving DecidableEq

/-- Comparison of second key slots.  Same-constructor cases use the orders
of the underlying types; the mixed cases never arise between keys with equal
first components and are fixed arbitrarily (numbers below strings) so that
the relation is total and transitive. -/
def pyKey2Le : PyKey2 → PyKey2 → Bool
  | .ofStr s, .ofStr t => decide (s ≤ t)
  | .ofNum x, .ofNum y => decide (x ≤ y)
  | .ofNum _, .ofStr _ => true
  | .ofStr _, .ofNum _ => false

/-- Lexicographic comparison of whole sort keys, the semantics of Python
tuple comparison on the keys produced by sort_key. -/
def sortKeyLe : ℕ × PyKey2 → ℕ × PyKey2 → Bool
  | (m, x), (n, y) => decide (m < n) || (decide (m = n) && pyKey2Le x y)

/-- The sort_key closure inside get_all_related_metrics (identical in both
visualizer files): exact case-insensitive matches of the mother metric get
key (0, ''); names with a maturity get (1, converted months); names with a
currency get (2, currency); all other names get (3, the name itself).
extract_maturity and extract_currency never return an empty string, so the
Python truthiness tests on them coincide with the is-some tests here. -/
def sort_key (mother_metric metric : String) : ℕ × PyKey2 :=
  let maturity := extract_maturity metric
  let currency := extract_currency metric
  if lower metric.data = lower mother_metric.data then (0, .ofStr [])
  else
    match maturity with
    | some mat => (1, .ofNum (convert_maturity_to_months mat))
    | none =>
      match currency with
      | some cur => (2, .ofStr cur)
      | none => (3, .ofStr metric.data)

/-- The ordering on metric names induced by sort_key for a given mother
metric; sorted(related_metrics, key=sort_key) is a stable sort by this
relation. -/
def metricOrder (mother_metric : String) : String → String → Prop :=
  fun a b => sortKeyLe (sort_key mother_metric a) (sort_key mother_metric b) = true

instance (mm : String) : DecidableRel (metricOrder mm) :=
  fun _ _ => instDecidableEqBool _ _

/-- Plain lexicographic order on strings by code point, the semantics of
Python string comparison used by sorted() without a key. -/
def lexLe : String → String → Prop := fun a b => a.data ≤ b.data

instance : DecidableRel lexLe := fun a b => inferInstanceAs (Decidable (a.data ≤ b.data))

/-- One entry of the rule table special_metric_rules: optional include and
exclude patterns, modelled by their matching functions (the semantics of
re.search(pattern, name, re.IGNORECASE) for the concrete regexes of
src/special_metrics_rules.py). -/
structure MetricRules where
  include_pattern : Option (String → Bool)
  exclude_pattern : Option (String → Bool)

/-- re.search of the VaR include pattern (VaR|SVaR|STTH anchored at the
start) with IGNORECASE: the name starts with var, svar or stth ignoring
case. -/
def reVarInclude (m : String) : Bool :=
  listStarts (lower m.data) "var".data || listStarts (lower m.data) "svar".data ||
    listStarts (lower m.data) "stth".data

/-- re.search of the FTQ include pattern (FTQ anchored at the start followed
by an optional tenor) with IGNORECASE: the optional group also matches the
empty string, so the search succeeds exactly when the name starts with ftq
ignoring case. -/
def reFtqInclude (m : String) : Bool := listStarts (lower m.data) "ftq".data

/-- re.search of the FTQ exclude pattern (globJapan|Japan followed by an
optional tenor, unanchored) with IGNORECASE: succeeds exactly when the name
contains globjapan or japan ignoring case. -/
def reFtqExclude (m : String) : Bool :=
  listHas (lower m.data) "globjapan".data || listHas (lower m.data) "japan".data

/-- re.search of the IRSensi include pattern (IRSensi anchored at the start
followed by an optional tenor) with IGNORECASE. -/
def reIrsensiInclude (m : String) : Bool := listStarts (lower m.data) "irsensi".data

/-- re.search of the IRSensi exclude pattern (JPY|ByCurve followed by an
optional tenor, unanchored) with IGNORECASE. -/
def reIrsensiExclude (m : String) : Bool :=
  listHas (lower m.data) "jpy".data || listHas (lower m.data) "bycurve".data

/-- re.search of the FX include pattern (FX anchored at the start followed
by three letters of class [A-Z]) with IGNORECASE; under IGNORECASE the class
[A-Z] also matches lowercase ASCII letters. -/
def reFxInclude (m : String) : Bool :=
  match m.data with
  | f :: x :: a :: b :: c :: _ =>
    f.toLower = 'f' && x.toLower = 'x' && a.isAlpha && b.isAlpha && c.isAlpha
  | _ => false

/-- re.search of the CIMSensiBOR include pattern (CIMSensiBOR anchored at
the start followed by an optional tenor) with IGNORECASE. -/
def reCimInclude (m : String) : Bool := listStarts (lower m.data) "cimsensibor".data

/-- re.search of the CIMSensiBOR exclude pattern (EUR followed by an
optional tenor, unanchored) with IGNORECASE. -/
def reCimExclude (m : String) : Bool := listHas (lower m.data) "eur".data

/-- The rule table of src/special_metrics_rules.py, a mapping from mother
metric name to its include and exclude patterns. -/
def special_metric_rules : List (String × MetricRules) :=
  [("VaR", ⟨some reVarInclude, none⟩),
   ("FTQ", ⟨some reFtqInclude, some reFtqExclude⟩),
   ("IRSensi", ⟨some reIrsensiInclude, some reIrsensiExclude⟩),
   ("FX", ⟨some reFxInclude, none⟩),
   ("CIMSensiBOR", ⟨some reCimInclude, some reCimExclude⟩)]

/-- Python dict lookup in special_metric_rules; isSome exactly when the
Python test mother_metric in special_metric_rules is true. -/
def lookupRules (mother_metric : String) : Option MetricRules :=
  (special_metric_rules.find? (fun p => p.1 = mother_metric)).map Prod.snd

/-- The expression self.data[self.data[stranaNodeName] == node]
[rmRiskMetricName].unique() shared by get_mother_metrics and both versions
of get_all_related_metrics: the distinct metric names of the node in order
of first occurrence. -/
def allMetricsOf (data : List Row) (strana_node : String) : List String :=
  pdUnique ((data.filter (fun r => r.stranaNodeName = strana_node)).map Row.rmRiskMetricName)

/-- The substring-containment test mother_metric.lower() in m.lower() used
by both resolvers as the default notion of relatedness. -/
def containsMother (mother_metric m : String) : Bool :=
  listHas (lower m.data) (lower mother_metric.data)

namespace SGMR

/-- The local variable related_metrics of
DataVisualizer.get_all_related_metrics in src/SGMR_visualizer.py, before the
final sort.  When the mother metric has special rules with an include
pattern, the include pattern selects directly from all metrics of the node
(so it can pick up names that do not contain the mother metric) and the
exclude pattern is then applied; with rules but no include pattern,
substring containment is used and the exclude pattern applied to it; with
no rules, substring containment alone. -/
def related_metrics (data : List Row) (strana_node mother_metric : String) :
    List String :=
  let all_metrics := allMetricsOf data strana_node
  match lookupRules mother_metric with
  | some rules =>
    match rules.include_pattern with
    | some ip =>
      let inc := all_metrics.filter (fun m => ip m)
      match rules.exclude_pattern with
      | some ep => inc.filter (fun m => !ep m)
      | none => inc
    | none =>
      let base := all_metrics.filter (fun m => containsMother mother_metric m)
      match rules.exclude_pattern with
      | some ep => base.filter (fun m => !ep m)
      | none => base
  | none => all_metrics.filter (fun m => containsMother mother_metric m)

/-- DataVisualizer.get_all_related_metrics of src/SGMR_visualizer.py: the
selection above, sorted by sort_key. -/
def get_all_related_metrics (data : List Row) (strana_node mother_metric : String) :
    List String :=
  List.insertionSort (metricOrder mother_metric) (related_metrics data strana_node mother_metric)

/-- DataVisualizer.get_mother_metrics of src/SGMR_visualizer.py: the
distinct metric names of the node that have neither a maturity nor a
currency, sorted lexically.  extract_maturity and extract_currency never
return an empty string, so Python truthiness coincides with is-some. -/
def get_mother_metrics (data : List Row) (strana_node : String) : List String :=
  let all_metrics := allMetricsOf data strana_node
  let mother_metrics :=
    all_metrics.filter (fun m => (extract_maturity m).isNone && (extract_currency m).isNone)
  List.insertionSort lexLe mother_metrics

end SGMR

namespace DataVis

/-- The local variable related_metrics of
DataVisualizer.get_all_related_metrics in src/data_visualizer.py, before
the final sort.  This version first restricts to names containing the
mother metric as a substring (base_related_metrics) and only then applies
the include and exclude patterns, so an include pattern cannot bring in a
name that does not contain the mother metric. -/
def related_metrics (data : List Row) (strana_node mother_metric : String) :
    List String :=
  let all_metrics := allMetricsOf data strana_node
  let base := all_metrics.filter (fun m => containsMother mother_metric m)
  match lookupRules mother_metric with
  | some rules =>
    let afterInclude :=
      match rules.include_pattern with
      | some ip => base.filter (fun m => ip m)
      | none => base
    match rules.exclude_pattern with
    | some ep => afterInclude.filter (fun m => !ep m)
    | none => afterInclude
  | none => base

/-- DataVisualizer.get_all_related_metrics of src/data_visualizer.py: the
selection above, sorted by the same sort_key. -/
def get_all_related_metrics (data : List Row) (strana_node mother_metric : String) :
    List String :=
  List.insertionSort (metricOrder mother_metric) (related_metrics data strana_node mother_metric)

end DataVis

/-- The DataVisualizer object state: the DataFrame stored by __init__.  The
body of get_all_related_metrics only reads self.data and assigns nothing to
self, so the method is embedded as a function that returns its result
together with the unchanged object state. -/
structure VisualizerState where
  data : List Row
deriving DecidableEq

/-- The method call form of SGMR DataVisualizer.get_all_related_metrics:
result plus the object state after the call. -/
def methodGetAllRelatedMetrics (self : VisualizerState) (strana_node mother_metric : String) :
    List String × VisualizerState :=
  (SGMR.get_all_related_metrics self.data strana_node mother_metric, self)

/-- The raw rmRiskMetricName values of a node (with multiplicity), before
the unique() step. -/
def rawNamesOf (data : List Row) (strana_node : String) : List String :=
  (data.filter (fun r => r.stranaNodeName = strana_node)).map Row.rmRiskMetricName

/-!  Model of src/html_generator.py.

The HTML boilerplate (CSS, headers, card markup) is constant text; the
content of the generated index.html that varies with the input is the
sequence of node sections and, inside each section, the sequence of metric
cards, each carrying exactly one anchor whose href is the record's output
file made relative to the output directory.  The model therefore represents
the generated document by that structure.  Paths are represented as
component lists; pathlib Path.relative_to raises ValueError when the base
is not a leading segment of the path, modelled by none, in which case the
exception propagates out of generate_index_html before anything is written.
-/

/-- The info['metrics'] field: a list of mother metrics for bar plots, a
single metric name for time series plots. -/
inductive MetricsField : Type
  | ofList : List String → MetricsField
  | ofStr : String → MetricsField
deriving DecidableEq

/-- One entry of plot_files_info. -/
structure PlotInfo where
  strana_node : String
  plot_type : String
  metrics : MetricsField
  output_file : List String
deriving DecidableEq

/-- The string ",".join(metrics) if metrics is a list else metrics, used as
the second component of the in-section sort key. -/
def metricsKeyChars : MetricsField → List Char
  | .ofList l => List.intercalate ",".data (l.map String.data)
  | .ofStr s => s.data

/-- Lexicographic order on pairs of character lists, the semantics of
Python tuple comparison on pairs of strings. -/
def pairLexLe (a b : List Char × List Char) : Prop :=
  a.1 < b.1 ∨ (a.1 = b.1 ∧ a.2 ≤ b.2)

instance : DecidableRel pairLexLe := fun a b => by
  unfold pairLexLe; infer_instance

/-- The sort key lambda x: (x['plot_type'], joined metrics) of
_generate_node_section. -/
def plotOrder (p q : PlotInfo) : Prop :=
  pairLexLe (p.plot_type.data, metricsKeyChars p.metrics)
    (q.plot_type.data, metricsKeyChars q.metrics)

instance : DecidableRel plotOrder := fun p q => by
  unfold plotOrder; infer_instance

/-- listStartsS l p is true when p is a leading segment of l (component
lists of paths). -/
def listStartsS : List String → List String → Bool
  | _, [] => true
  | [], _ :: _ => false
  | a :: as, b :: bs => a = b && listStartsS as bs

/-- pathlib Path.relative_to on component lists: the remaining components
when base leads the path, ValueError (none) otherwise. -/
def relative_to (p base : List String) : Option (List String) :=
  if listStartsS p base then some (p.drop base.length) else none

/-- One node section of the generated index: the node heading and the href
of the single anchor of each metric card, in document order. -/
structure NodeSection where
  node : String
  links : List (List String)
deriving DecidableEq

/-- HTMLGenerator._generate_node_section: sorts the node's records by
(plot_type, joined metrics) and emits one card with one link per record;
a relative_to failure raises out of the whole generation. -/
def generate_node_section (node : String) (plots : List PlotInfo)
    (output_dir : List String) : Option NodeSection :=
  (seqOption (fun p => relative_to p.output_file output_dir)
    (List.insertionSort plotOrder plots)).map (fun hrefs => ⟨node, hrefs⟩)

/-- HTMLGenerator._generate_html_content together with
_group_plots_by_node: records are grouped by strana_node (a dict keyed in
first-occurrence order, each group keeping record order), the node keys are
sorted alphabetically, and one section is emitted per node. -/
def generate_html_content (plot_infos : List PlotInfo) (output_dir : List String) :
    Option (List NodeSection) :=
  let sorted_nodes := List.insertionSort lexLe (pdUnique (plot_infos.map PlotInfo.strana_node))
  seqOption
    (fun node =>
      generate_node_section node (plot_infos.filter (fun i => i.strana_node = node)) output_dir)
    sorted_nodes

/-- HTMLGenerator.generate_index_html: the content written to index.html
(an IOError on the final file write is caught and logged; the content
itself is as computed here, and none means a ValueError escaped and no
index was written). -/
def generate_index_html (plot_infos : List PlotInfo) (output_dir : List String) :
    Option (List NodeSection) :=
  generate_html_content plot_infos output_dir

/-!  Model of main.py control flow.

load_event_dates reads Input/Auction Date.csv behind a module-level cache.
Dates are encoded as naturals yyyymmdd; datetime(2023, 3, 14) is 20230314.
A cell of the EventDate column is modelled by some d when pd.to_datetime
parses it and none when it raises; readRaises models pd.read_csv itself
raising (unreadable or malformed file).  The cache global is passed and
returned explicitly.

main() wraps the load of Input/fake_data.csv, the plot loop and the index
generation in one try/except that logs and re-raises, so a failure there
terminates the script; each individual chart call and the PNL and custom
visualization steps are wrapped in their own try/except that logs and
continues.  The model keeps the log trace and a flag telling whether the
script ran to completion.
-/

/-- The Auction Date.csv file as seen by load_event_dates. -/
structure AuctionDateFile where
  readRaises : Bool
  hasEventDateColumn : Bool
  rows : List (Option ℕ)
deriving DecidableEq

/-- Log events of load_event_dates, one per logging call in the source. -/
inductive EventLog : Type
  | warnFileMissing
  | warnNoColumn
  | errorLoadFailed
  | infoLoaded : ℕ → EventLog
deriving DecidableEq

/-- The hard-coded fallback [datetime(2023, 3, 14), datetime(2023, 3, 16)]. -/
def default_event_dates : List ℕ := [20230314, 20230316]

/-- load_event_dates of main.py: returns (result, new cache, log events).
A hit on the cache returns it unchanged; a missing file, a missing
EventDate column, a read error or a date that fails to parse each log and
return the defaults without caching; a successful read sorts the parsed
dates, caches and returns them. -/
def load_event_dates (cache : Option (List ℕ)) (file : Option AuctionDateFile) :
    List ℕ × Option (List ℕ) × List EventLog :=
  match cache with
  | some dates => (dates, some dates, [])
  | none =>
    match file with
    | none => (default_event_dates, none, [EventLog.warnFileMissing])
    | some f =>
      if f.readRaises then (default_event_dates, none, [EventLog.errorLoadFailed])
      else if !f.hasEventDateColumn then (default_event_dates, none, [EventLog.warnNoColumn])
      else
        match seqOption id f.rows with
        | none => (default_event_dates, none, [EventLog.errorLoadFailed])
        | some ds =>
          let sorted := List.insertionSort (fun a b : ℕ => a ≤ b) ds
          (sorted, some sorted, [EventLog.infoLoaded ds.length])

/-- Log events of main(), one per logging call relevant to the claims. -/
inductive MainLog : Type
  | chartDone : String → MainLog
  | chartError : String → MainLog
  | pnlDone
  | pnlError
  | scriptError
  | finishedOk
  | customError
deriving DecidableEq

/-- The environment main() runs in: the main input CSV (none = missing or
unreadable, so DataLoader.load_csv raises), the chart-rendering calls with
a flag telling whether each raises, and whether the PNL step and the
custom-visualization step raise. -/
structure MainEnv where
  fake_data : Option (List Row)
  chart_jobs : List (String × Bool)
  pnl_fails : Bool
  custom_fails : Bool

/-- The per-chart try/except of create_bar_plot and of the future-result
loop of create_time_series_plots: a raising chart is logged and skipped,
a succeeding one appends its entry to plot_files_info. -/
def run_chart_jobs : List (String × Bool) → List MainLog × List String
  | [] => ([], [])
  | (name, fails) :: jobs =>
    let rest := run_chart_jobs jobs
    if fails then (MainLog.chartError name :: rest.1, rest.2)
    else (MainLog.chartDone name :: rest.1, name :: rest.2)

/-- Control flow of main() in main.py.  When the input CSV cannot be
loaded, DataLoader.load_csv raises, the outer except logs and re-raises,
nothing after the try statement runs, and the script terminates with the
exception (second component false).  Otherwise the chart loop runs with
per-chart error handling, the PNL step's error is caught and logged, the
closing log line is reached, the custom-visualization step's error is
caught and printed, and the script completes (second component true). -/
def mainRun (env : MainEnv) : List MainLog × Bool :=
  match env.fake_data with
  | none => ([MainLog.scriptError], false)
  | some _ =>
    let charts := run_chart_jobs env.chart_jobs
    let plog := if env.pnl_fails then MainLog.pnlError else MainLog.pnlDone
    let custom := if env.custom_fails then [MainLog.customError] else []
    (charts.1 ++ [plog, MainLog.finishedOk] ++ custom, true)

/-!  Supporting lemmas. -/

theorem mem_pdUniqueAux (a : String) :
    ∀ (l : List String) (seen : List String),
      a ∈ pdUniqueAux seen l ↔ a ∈ l ∧ a ∉ seen := by
  intro l
  induction l with
  | nil => intro seen; simp [pdUniqueAux]
  | cons x xs ih =>
    intro seen
    simp only [pdUniqueAux]
    by_cases hx : x ∈ seen
    · rw [if_pos hx, ih]
      simp only [List.mem_cons]
      constructor
      · rintro ⟨h1, h2⟩
        exact ⟨Or.inr h1, h2⟩
      · rintro ⟨h1 | h1, h2⟩
        · exact absurd (h1 ▸ hx) h2
        · exact ⟨h1, h2⟩
    · rw [if_neg hx]
      simp only [List.mem_cons, ih, List.mem_cons]
      constructor
      · rintro (h | ⟨h1, h2⟩)
        · subst h
          exact ⟨Or.inl rfl, hx⟩
        · exact ⟨Or.inr h1, fun hs => h2 (Or.inr hs)⟩
      · rintro ⟨h1 | h1, h2⟩
        · exact Or.inl h1
        · by_cases hax : a = x
          · exact Or.inl hax
          · exact Or.inr ⟨h1, fun hs => hs.elim hax h2⟩
  
theorem nodup_pdUniqueAux :
    ∀ (l : List String) (seen : List String), (pdUniqueAux seen l).Nodup := by
  intro l
  induction l with
  | nil => intro seen; simp [pdUniqueAux]
  | cons x xs ih =>
    intro seen
    simp only [pdUniqueAux]
    by_cases hx : x ∈ seen
    · rw [if_pos hx]; exact ih seen
    · rw [if_neg hx]
      refine List.nodup_cons.mpr ⟨?_, ih (x :: seen)⟩
      intro hmem
      rcases (mem_pdUniqueAux x xs (x :: seen)).mp hmem with ⟨_, h2⟩
      exact h2 (List.mem_cons_self x seen)

theorem mem_pdUnique (a : String) (l : List String) : a ∈ pdUnique l ↔ a ∈ l := by
  unfold pdUnique
  rw [mem_pdUniqueAux]
  simp

theorem nodup_pdUnique (l : List String) : (pdUnique l).Nodup :=
  nodup_pdUniqueAux l []

theorem pyKey2Le_total : ∀ x y : PyKey2, pyKey2Le x y = true ∨ pyKey2Le y x = true
  | .ofStr s, .ofStr t => by simpa [pyKey2Le] using le_total s t
  | .ofNum x, .ofNum y => by simpa [pyKey2Le] using le_total x y
  | .ofNum _, .ofStr _ => Or.inl rfl
  | .ofStr _, .ofNum _ => Or.inr rfl

theorem pyKey2Le_trans :
    ∀ {x y z : PyKey2}, pyKey2Le x y = true → pyKey2Le y z = true → pyKey2Le x z = true
  | .ofStr _, .ofStr _, .ofStr _, h1, h2 => by
    simp only [pyKey2Le, decide_eq_true_eq] at h1 h2 ⊢
    exact le_trans h1 h2
  | .ofNum _, .ofNum _, .ofNum _, h1, h2 => by
    simp only [pyKey2Le, decide_eq_true_eq] at h1 h2 ⊢
    exact le_trans h1 h2
  | .ofNum _, .ofNum _, .ofStr _, _, _ => rfl
  | .ofNum _, .ofStr _, .ofStr _, _, _ => rfl
  | .ofStr _, .ofNum _, _, h1, _ => by cases h1
  | .ofNum _, .ofStr _, .ofNum _, _, h2 => by cases h2

theorem sortKeyLe_total (a b : ℕ × PyKey2) : sortKeyLe a b = true ∨ sortKeyLe b a = true := by
  rcases a with ⟨m, x⟩
  rcases b with ⟨n, y⟩
  simp only [sortKeyLe, Bool.or_eq_true, Bool.and_eq_true, decide_eq_true_eq]
  rcases lt_trichotomy m n with h | h | h
  · exact Or.inl (Or.inl h)
  · rcases pyKey2Le_total x y with hk | hk
    · exact Or.inl (Or.inr ⟨h, hk⟩)
    · exact Or.inr (Or.inr ⟨h.symm, hk⟩)
  · exact Or.inr (Or.inl h)

theorem sortKeyLe_trans {a b c : ℕ × PyKey2}
    (h1 : sortKeyLe a b = true) (h2 : sortKeyLe b c = true) : sortKeyLe a c = true := by
  rcases a with ⟨m, x⟩
  rcases b with ⟨n, y⟩
  rcases c with ⟨k, z⟩
  simp only [sortKeyLe, Bool.or_eq_true, Bool.and_eq_true, decide_eq_true_eq] at h1 h2 ⊢
  rcases h1 with h1 | ⟨h1, hxy⟩
  · rcases h2 with h2 | ⟨h2, _⟩
    · exact Or.inl (lt_trans h1 h2)
    · exact Or.inl (h2 ▸ h1)
  · rcases h2 with h2 | ⟨h2, hyz⟩
    · exact Or.inl (h1 ▸ h2)
    · exact Or.inr ⟨h1.trans h2, pyKey2Le_trans hxy hyz⟩

instance (mm : String) : IsTotal String (metricOrder mm) :=
  ⟨fun _ _ => sortKeyLe_total _ _⟩

instance (mm : String) : IsTrans String (metricOrder mm) :=
  ⟨fun _ _ _ h1 h2 => sortKeyLe_trans h1 h2⟩

instance : IsTotal String lexLe :=
  ⟨fun a b => le_total a.data b.data⟩

instance : IsTrans String lexLe :=
  ⟨fun _ _ _ h1 h2 => le_trans h1 h2⟩

theorem sortKeyLe_fst_le {a b : ℕ × PyKey2} (h : sortKeyLe a b = true) : a.1 ≤ b.1 := by
  rcases a with ⟨m, x⟩
  rcases b with ⟨n, y⟩
  simp only [sortKeyLe, Bool.or_eq_true, Bool.and_eq_true, decide_eq_true_eq] at h
  rcases h with h | ⟨h, _⟩
  · exact le_of_lt h
  · exact le_of_eq h

theorem sortKeyLe_snd {a b : ℕ × PyKey2} (h : sortKeyLe a b = true) (hf : a.1 = b.1) :
    pyKey2Le a.2 b.2 = true := by
  rcases a with ⟨m, x⟩
  rcases b with ⟨n, y⟩
  simp only [sortKeyLe, Bool.or_eq_true, Bool.and_eq_true, decide_eq_true_eq] at h
  rcases h with h | ⟨_, hk⟩
  · exact absurd hf (ne_of_lt h)
  · exact hk

/-- The classification of a metric name used by sort_key, written with the
predicates of the claims: class 0 is a case-insensitive exact match of the
mother metric, class 1 a remaining tenor-bearing name, class 2 a remaining
currency-bearing name, class 3 everything else. -/
def classOf (mother_metric metric : String) : ℕ :=
  if lower metric.data = lower mother_metric.data then 0
  else if (extract_maturity metric).isSome then 1
  else if (extract_currency metric).isSome then 2
  else 3

theorem classOf_eq_fst (mm m : String) : classOf mm m = (sort_key mm m).1 := by
  unfold classOf sort_key
  by_cases h : lower m.data = lower mm.data
  · simp [h]
  · cases hm : extract_maturity m <;> cases hc : extract_currency m <;> simp [h, hm, hc]

theorem sort_key_snd_of_class1 (mm m : String) (h : classOf mm m = 1) :
    ∃ t, extract_maturity m = some t ∧
      (sort_key mm m).2 = PyKey2.ofNum (convert_maturity_to_months t) := by
  unfold classOf at h
  unfold sort_key
  by_cases he : lower m.data = lower mm.data
  · rw [if_pos he] at h; cases h
  · rw [if_neg he] at h
    cases hm : extract_maturity m with
    | none =>
      cases hc : extract_currency m with
      | none => rw [hm, hc] at h; simp at h
      | some c => rw [hm, hc] at h; simp at h
    | some t => exact ⟨t, rfl, by simp [he, hm]⟩

theorem sort_key_snd_of_class2 (mm m : String) (h : classOf mm m = 2) :
    ∃ c, extract_currency m = some c ∧ (sort_key mm m).2 = PyKey2.ofStr c := by
  unfold classOf at h
  unfold sort_key
  by_cases he : lower m.data = lower mm.data
  · rw [if_pos he] at h; cases h
  · rw [if_neg he] at h
    cases hm : extract_maturity m with
    | some t => rw [hm] at h; simp at h
    | none =>
      rw [hm] at h
      cases hc : extract_currency m with
      | none => rw [hc] at h; simp at h
      | some c => exact ⟨c, rfl, by simp [he, hm, hc]⟩

theorem sort_key_snd_of_class3 (mm m : String) (h : classOf mm m = 3) :
    (sort_key mm m).2 = PyKey2.ofStr m.data := by
  unfold classOf at h
  unfold sort_key
  by_cases he : lower m.data = lower mm.data
  · rw [if_pos he] at h; cases h
  · rw [if_neg he] at h
    cases hm : extract_maturity m with
    | some t => rw [hm] at h; simp at h
    | none =>
      rw [hm] at h
      cases hc : extract_currency m with
      | some c => rw [hc] at h; simp at h
      | none => simp [he, hm, hc]

theorem sgmr_sorted (data : List Row) (node mm : String) :
    List.Sorted (metricOrder mm) (SGMR.get_all_related_metrics data node mm) :=
  List.sorted_insertionSort _ _

theorem datavis_sorted (data : List Row) (node mm : String) :
    List.Sorted (metricOrder mm) (DataVis.get_all_related_metrics data node mm) :=
  List.sorted_insertionSort _ _

/-- The pre-sort selection of the SGMR resolver is a sublist of the node's
distinct metric names. -/
theorem sgmr_pre (data : List Row) (node mm : String) :
    (SGMR.related_metrics data node mm).Sublist (allMetricsOf data node) := by
  unfold SGMR.related_metrics
  rcases lookupRules mm with _ | ⟨ipat, epat⟩
  · exact List.filter_sublist _
  · rcases ipat with _ | ip
    · rcases epat with _ | ep
      · exact List.filter_sublist _
      · exact (List.filter_sublist _).trans (List.filter_sublist _)
    · rcases epat with _ | ep
      · exact List.filter_sublist _
      · exact (List.filter_sublist _).trans (List.filter_sublist _)

/-- The same for the data_visualizer resolver. -/
theorem datavis_pre (data : List Row) (node mm : String) :
    (DataVis.related_metrics data node mm).Sublist (allMetricsOf data node) := by
  unfold DataVis.related_metrics
  rcases lookupRules mm with _ | ⟨ipat, epat⟩
  · exact List.filter_sublist _
  · rcases ipat with _ | ip
    · rcases epat with _ | ep
      · exact List.filter_sublist _
      · exact (List.filter_sublist _).trans (List.filter_sublist _)
    · rcases epat with _ | ep
      · exact (List.filter_sublist _).trans (List.filter_sublist _)
      · exact ((List.filter_sublist _).trans (List.filter_sublist _)).trans
          (List.filter_sublist _)

theorem allMetricsOf_eq (data : List Row) (node : String) :
    allMetricsOf data node = pdUnique (rawNamesOf data node) := rfl

theorem seqOption_map_of_forall {α β : Type} (f : α → Option β) (g : α → β) :
    ∀ l : List α, (∀ a ∈ l, f a = some (g a)) → seqOption f l = some (l.map g) := by
  intro l
  induction l with
  | nil => intro _; rfl
  | cons a l ih =>
    intro h
    have ha : f a = some (g a) := h a (List.mem_cons_self a l)
    have hrest := ih (fun x hx => h x (List.mem_cons_of_mem _ hx))
    simp [seqOption, ha, hrest]

/-!  Claim theorems. -/

/-- Claim C1, counterexample.  The claim quantifies over the
get_all_related_metrics implementations cited in its sources, but the
data_visualizer.py implementation does not let the include pattern override
substring containment: for the pool of STTHH and VaR under mother metric
VaR (whose rule includes names starting with STTH), the include pattern
matches STTHH, yet the data_visualizer resolver drops it because STTHH does
not contain the substring var. -/
theorem c1_counterexample :
    lookupRules "VaR" = some ⟨some reVarInclude, none⟩ ∧
    reVarInclude "STTHH" = true ∧
    allMetricsOf [⟨"P", "STTHH"⟩, ⟨"P", "VaR"⟩] "P" = ["STTHH", "VaR"] ∧
    DataVis.get_all_related_metrics [⟨"P", "STTHH"⟩, ⟨"P", "VaR"⟩] "P" "VaR" = ["VaR"] :=
  ⟨rfl, by decide, by decide, by decide⟩

/-- Claim C1, as amended: for the SGMR_visualizer.py implementation, when
the mother metric has an entry in special_metric_rules carrying an include
pattern (every entry of the actual table does), the returned names are
exactly the node's metric names matching the include pattern minus those
matching the exclude pattern, whether or not they contain the mother metric
as a substring. -/
theorem c1_included_exactly (data : List Row) (strana_node mother_metric : String)
    (rules : MetricRules) (ip : String → Bool)
    (hr : lookupRules mother_metric = some rules)
    (hip : rules.include_pattern = some ip) (m : String) :
    m ∈ SGMR.get_all_related_metrics data strana_node mother_metric ↔
      m ∈ allMetricsOf data strana_node ∧ ip m = true ∧
        ∀ ep, rules.exclude_pattern = some ep → ep m = false := by
  unfold SGMR.get_all_related_metrics
  rw [(List.perm_insertionSort _ _).mem_iff]
  unfold SGMR.related_metrics
  rcases rules with ⟨ipat, epat⟩
  simp only at hip
  subst hip
  rw [hr]
  rcases epat with _ | ep
  · simp [List.mem_filter, and_assoc]
  · simp only [List.mem_filter, Bool.not_eq_true', Option.some.injEq]
    constructor
    · rintro ⟨⟨h1, h2⟩, h3⟩
      exact ⟨h1, h2, fun ep2 he => he ▸ h3⟩
    · rintro ⟨h1, h2, h3⟩
      exact ⟨⟨h1, h2⟩, h3 ep rfl⟩

/-- Claim C1 witness: the amended theorem applied to the pool consisting of
only STTHH under mother metric VaR. -/
theorem c1_witness :
    "STTHH" ∈ SGMR.get_all_related_metrics [⟨"P2", "STTHH"⟩] "P2" "VaR" :=
  (c1_included_exactly [⟨"P2", "STTHH"⟩] "P2" "VaR" ⟨some reVarInclude, none⟩ reVarInclude
    rfl rfl "STTHH").mpr ⟨by decide, by decide, by intro ep hep; cases hep⟩

/-- Modelled from the claim, not from the source: the true calendar
duration in days denoted by a tenor string, used only to state claim C2.
A year is 365 calendar days, a week 7, a month taken as 30, a day 1; only
the week and year cases are used by the counterexample. -/
def calendarDays (t : List Char) : ℕ :=
  let value := digitsVal t.dropLast
  if t.getLast! = 'Y' then value * 365
  else if t.getLast! = 'M' then value * 30
  else if t.getLast! = 'W' then value * 7
  else value

/-- Claim C2, counterexample.  The claim says tenor-bearing names sort by
true calendar duration ascending, with 52W (364 days) before 1Y (365 days).
The code instead sorts by an approximate month count (a year 12 months, a
week a quarter month), under which 1Y (12 months) sorts before 52W (13
months): on the pool ABC1Y, ABC52W the resolver returns ABC1Y first even
though the tenor 52W denotes the shorter true calendar duration. -/
theorem c2_counterexample :
    SGMR.get_all_related_metrics [⟨"N", "ABC1Y"⟩, ⟨"N", "ABC52W"⟩] "N" "ABC" =
      ["ABC1Y", "ABC52W"] ∧
    extract_maturity "ABC52W" = some "52W".data ∧
    extract_maturity "ABC1Y" = some "1Y".data ∧
    calendarDays "52W".data < calendarDays "1Y".data := by decide

/-- Claim C2, as amended: in the returned list, among names classified as
tenor-bearing (class 1: carrying a tenor and not an exact match of the
mother metric), earlier names have a converted month value less than or
equal to that of later names, where the conversion is the code's
approximation: a year 12 months, a month 1, a week 1/4, a day 1/30 (stored
scaled by 60).  This can disagree with true calendar duration, e.g. 1Y
sorts before 52W. -/
theorem c2_months_ascending (data : List Row) (strana_node mother_metric : String) :
    List.Pairwise
      (fun a b =>
        classOf mother_metric a = 1 → classOf mother_metric b = 1 →
          ∀ ta tb, extract_maturity a = some ta → extract_maturity b = some tb →
            convert_maturity_to_months ta ≤ convert_maturity_to_months tb)
      (SGMR.get_all_related_metrics data strana_node mother_metric) := by
  refine List.Pairwise.imp ?_ (sgmr_sorted data strana_node mother_metric)
  intro a b hab ha hb ta tb hta htb
  have hab2 : sortKeyLe (sort_key mother_metric a) (sort_key mother_metric b) = true := hab
  have hfst : (sort_key mother_metric a).1 = (sort_key mother_metric b).1 := by
    rw [← classOf_eq_fst, ← classOf_eq_fst, ha, hb]
  have h2 := sortKeyLe_snd hab2 hfst
  rcases sort_key_snd_of_class1 mother_metric a ha with ⟨ta2, hta2, hsa⟩
  rcases sort_key_snd_of_class1 mother_metric b hb with ⟨tb2, htb2, hsb⟩
  rw [hta] at hta2
  rw [htb] at htb2
  injection hta2 with e1
  injection htb2 with e2
  subst e1
  subst e2
  rw [hsa, hsb] at h2
  simpa [pyKey2Le] using h2

/-- Claim C2 witness: the amended theorem instantiated at a concrete pool. -/
theorem c2_witness :
    List.Pairwise
      (fun a b =>
        classOf "ABC" a = 1 → classOf "ABC" b = 1 →
          ∀ ta tb, extract_maturity a = some ta → extract_maturity b = some tb →
            convert_maturity_to_months ta ≤ convert_maturity_to_months tb)
      (SGMR.get_all_related_metrics [⟨"N", "ABC1Y"⟩, ⟨"N", "ABC52W"⟩] "N" "ABC") :=
  c2_months_ascending [⟨"N", "ABC1Y"⟩, ⟨"N", "ABC52W"⟩] "N" "ABC"

/-- Claim C3: the returned list is ordered in the four blocks of sort_key.
classOf is the progressive classification of the claim: class 0 a
case-insensitive exact match of the mother metric, class 1 a remaining
tenor-bearing name, class 2 a remaining currency-bearing name, class 3
everything else.  Earlier names never have a larger class; within class 2
the parsed currency codes are ascending; within class 3 the names are in
lexical order. -/
theorem c3_blocks (data : List Row) (strana_node mother_metric : String) :
    List.Pairwise
      (fun a b =>
        classOf mother_metric a ≤ classOf mother_metric b ∧
        (classOf mother_metric a = 2 → classOf mother_metric b = 2 →
          ∀ ca cb, extract_currency a = some ca → extract_currency b = some cb → ca ≤ cb) ∧
        (classOf mother_metric a = 3 → classOf mother_metric b = 3 → a.data ≤ b.data))
      (SGMR.get_all_related_metrics data strana_node mother_metric) := by
  refine List.Pairwise.imp ?_ (sgmr_sorted data strana_node mother_metric)
  intro a b hab
  have hab2 : sortKeyLe (sort_key mother_metric a) (sort_key mother_metric b) = true := hab
  refine ⟨?_, ?_, ?_⟩
  · rw [classOf_eq_fst, classOf_eq_fst]
    exact sortKeyLe_fst_le hab2
  · intro ha hb ca cb hca hcb
    have hfst : (sort_key mother_metric a).1 = (sort_key mother_metric b).1 := by
      rw [← classOf_eq_fst, ← classOf_eq_fst, ha, hb]
    have h2 := sortKeyLe_snd hab2 hfst
    rcases sort_key_snd_of_class2 mother_metric a ha with ⟨ca2, hca2, hsa⟩
    rcases sort_key_snd_of_class2 mother_metric b hb with ⟨cb2, hcb2, hsb⟩
    rw [hca] at hca2
    rw [hcb] at hcb2
    injection hca2 with e1
    injection hcb2 with e2
    subst e1
    subst e2
    rw [hsa, hsb] at h2
    simpa [pyKey2Le] using h2
  · intro ha hb
    have hfst : (sort_key mother_metric a).1 = (sort_key mother_metric b).1 := by
      rw [← classOf_eq_fst, ← classOf_eq_fst, ha, hb]
    have h2 := sortKeyLe_snd hab2 hfst
    rw [sort_key_snd_of_class3 mother_metric a ha, sort_key_snd_of_class3 mother_metric b hb] at h2
    simpa [pyKey2Le] using h2

/-- Claim C3 witness: the theorem instantiated at a concrete pool covering
all four blocks. -/
theorem c3_witness :
    List.Pairwise
      (fun a b =>
        classOf "FTQ" a ≤ classOf "FTQ" b ∧
        (classOf "FTQ" a = 2 → classOf "FTQ" b = 2 →
          ∀ ca cb, extract_currency a = some ca → extract_currency b = some cb → ca ≤ cb) ∧
        (classOf "FTQ" a = 3 → classOf "FTQ" b = 3 → a.data ≤ b.data))
      (SGMR.get_all_related_metrics
        [⟨"N", "FTQ"⟩, ⟨"N", "FTQ3M"⟩, ⟨"N", "FTQ[USD]"⟩, ⟨"N", "FTQx"⟩] "N" "FTQ") :=
  c3_blocks [⟨"N", "FTQ"⟩, ⟨"N", "FTQ3M"⟩, ⟨"N", "FTQ[USD]"⟩, ⟨"N", "FTQx"⟩] "N" "FTQ"

/-- Claim C4, counterexample.  The two implementations are not equivalent:
under mother metric VaR (which has an include pattern matching STTH-names),
the SGMR resolver returns STTHH while the data_visualizer resolver returns
nothing, because STTHH does not contain the substring var. -/
theorem c4_counterexample :
    SGMR.get_all_related_metrics [⟨"Q", "STTHH"⟩] "Q" "VaR" = ["STTHH"] ∧
    DataVis.get_all_related_metrics [⟨"Q", "STTHH"⟩] "Q" "VaR" = [] := by decide

/-- Claim C4, as amended: the two implementations agree whenever the mother
metric has no entry in special_metric_rules; for a mother metric with an
include pattern the data_visualizer version additionally intersects with
substring containment. -/
theorem c4_agree_no_rules (data : List Row) (strana_node mother_metric : String)
    (h : lookupRules mother_metric = none) :
    SGMR.get_all_related_metrics data strana_node mother_metric =
      DataVis.get_all_related_metrics data strana_node mother_metric := by
  unfold SGMR.get_all_related_metrics DataVis.get_all_related_metrics
  unfold SGMR.related_metrics DataVis.related_metrics
  rw [h]

/-- Claim C4 witness: the amended theorem applied at a mother metric with
no special rules. -/
theorem c4_witness :
    SGMR.get_all_related_metrics [⟨"N", "ABCZ"⟩, ⟨"N", "XABC"⟩] "N" "ABC" =
      DataVis.get_all_related_metrics [⟨"N", "ABCZ"⟩, ⟨"N", "XABC"⟩] "N" "ABC" :=
  c4_agree_no_rules [⟨"N", "ABCZ"⟩, ⟨"N", "XABC"⟩] "N" "ABC" rfl

/-- Claim C6: the metric resolver is pure and stateless.  The method reads
self.data and writes nothing, so calling it leaves the visualizer state
unchanged, and calling it again right after the first call (on the state
the first call returns) gives the same list. -/
theorem c6_pure (v : VisualizerState) (strana_node mother_metric : String) :
    (methodGetAllRelatedMetrics v strana_node mother_metric).2 = v ∧
    (methodGetAllRelatedMetrics
        ((methodGetAllRelatedMetrics v strana_node mother_metric).2)
        strana_node mother_metric).1 =
      (methodGetAllRelatedMetrics v strana_node mother_metric).1 :=
  ⟨rfl, rfl⟩

/-- Claim C7: get_mother_metrics returns, in lexically sorted order,
exactly the metric names of the node carrying neither a tenor (no substring
matching digits followed by D, W, M or Y) nor a currency (no bracketed
three-letter uppercase code). -/
theorem c7_mother_metrics (data : List Row) (strana_node : String) :
    List.Sorted lexLe (SGMR.get_mother_metrics data strana_node) ∧
    ∀ m, m ∈ SGMR.get_mother_metrics data strana_node ↔
      m ∈ rawNamesOf data strana_node ∧
        extract_maturity m = none ∧ extract_currency m = none := by
  constructor
  · exact List.sorted_insertionSort _ _
  · intro m
    unfold SGMR.get_mother_metrics
    rw [(List.perm_insertionSort _ _).mem_iff, List.mem_filter]
    rw [allMetricsOf_eq, mem_pdUnique]
    simp [Option.isNone_iff_eq_none]

/-- Claim C9: both resolvers return lists without duplicates whose every
element occurs as an rmRiskMetricName of the node in the data. -/
theorem c9_invariant (data : List Row) (strana_node mother_metric : String) :
    ((SGMR.get_all_related_metrics data strana_node mother_metric).Nodup ∧
      ∀ m ∈ SGMR.get_all_related_metrics data strana_node mother_metric,
        m ∈ rawNamesOf data strana_node) ∧
    ((DataVis.get_all_related_metrics data strana_node mother_metric).Nodup ∧
      ∀ m ∈ DataVis.get_all_related_metrics data strana_node mother_metric,
        m ∈ rawNamesOf data strana_node) := by
  have hnodup : (allMetricsOf data strana_node).Nodup :=
    nodup_pdUnique (rawNamesOf data strana_node)
  constructor
  · constructor
    · exact ((List.perm_insertionSort _ _).nodup_iff).mpr
        ((sgmr_pre data strana_node mother_metric).nodup hnodup)
    · intro m hm
      have hm2 : m ∈ SGMR.related_metrics data strana_node mother_metric :=
        (List.perm_insertionSort _ _).mem_iff.mp hm
      exact (mem_pdUnique m (rawNamesOf data strana_node)).mp
        ((sgmr_pre data strana_node mother_metric).subset hm2)
  · constructor
    · exact ((List.perm_insertionSort _ _).nodup_iff).mpr
        ((datavis_pre data strana_node mother_metric).nodup hnodup)
    · intro m hm
      have hm2 : m ∈ DataVis.related_metrics data strana_node mother_metric :=
        (List.perm_insertionSort _ _).mem_iff.mp hm
      exact (mem_pdUnique m (rawNamesOf data strana_node)).mp
        ((datavis_pre data strana_node mother_metric).subset hm2)

/-- Claim C9 witness: the theorem applied at a concrete pool, discharging
the membership hypothesis. -/
theorem c9_witness :
    "VaR" ∈ rawNamesOf [⟨"N", "VaR"⟩] "N" :=
  (c9_invariant [⟨"N", "VaR"⟩] "N" "VaR").1.2 "VaR" (by decide)

theorem run_chart_jobs_files :
    ∀ jobs : List (String × Bool),
      (run_chart_jobs jobs).2 = (jobs.filter (fun j => !j.2)).map Prod.fst := by
  intro jobs
  induction jobs with
  | nil => rfl
  | cons j jobs ih =>
    rcases j with ⟨name, fails⟩
    cases fails <;> simp [run_chart_jobs, ih, List.filter_cons]

/-- Claim C5, counterexample.  The claim says a missing or unreadable input
CSV does not terminate the script.  It does: DataLoader.load_csv re-raises
any read error, and the outer except of main logs and re-raises, so the
script terminates with the exception (second component false) even though
every chart call would have succeeded. -/
theorem c5_counterexample :
    mainRun ⟨none, [("chartA", false)], false, false⟩ = ([MainLog.scriptError], false) := rfl

/-- Claim C5, as amended: whenever the main input CSV loads, per-chart
errors and errors of the PNL and custom-visualization steps are caught and
logged, only the failing chart is skipped (the produced plot entries are
exactly the non-failing jobs, in order), and the script runs to completion;
but an error loading the main input CSV propagates out of main and
terminates the script. -/
theorem c5_error_handling (env : MainEnv) (d : List Row) (h : env.fake_data = some d) :
    (mainRun env).2 = true ∧
    (run_chart_jobs env.chart_jobs).2 =
      (env.chart_jobs.filter (fun j => !j.2)).map Prod.fst := by
  constructor
  · unfold mainRun
    rw [h]
  · exact run_chart_jobs_files env.chart_jobs

/-- Claim C5 witness: a run with a present CSV, one failing chart, a
failing PNL step and a failing custom step still completes, and only the
failing chart is skipped. -/
theorem c5_witness :
    (mainRun ⟨some [], [("a", true), ("b", false)], true, true⟩).2 = true ∧
    (run_chart_jobs [("a", true), ("b", false)]).2 =
      (([("a", true), ("b", false)] : List (String × Bool)).filter (fun j => !j.2)).map
        Prod.fst :=
  c5_error_handling ⟨some [], [("a", true), ("b", false)], true, true⟩ [] rfl

/-- Claim C8, counterexample.  The claim quantifies over every list of plot
records, but a record whose output file does not lie under the output
directory makes Path.relative_to raise ValueError inside
_generate_node_section, so generate_index_html raises and writes no index
at all. -/
theorem c8_counterexample :
    generate_index_html [⟨"A", "bar", MetricsField.ofList ["X"], ["elsewhere", "x.html"]⟩]
      ["output"] = none := by decide

/-- Claim C8, as amended: provided every record's output file lies under
the output directory, the generated index has one section per strana node,
the sections in alphabetical node order, and each record contributes
exactly one link in its node's section, pointing at the record's output
file relative to the output directory. -/
theorem c8_index_structure (plot_infos : List PlotInfo) (output_dir : List String)
    (h : ∀ i ∈ plot_infos, listStartsS i.output_file output_dir = true) :
    ∃ secs, generate_index_html plot_infos output_dir = some secs ∧
      secs.map NodeSection.node =
        List.insertionSort lexLe (pdUnique (plot_infos.map PlotInfo.strana_node)) ∧
      List.Sorted lexLe (secs.map NodeSection.node) ∧
      (secs.map NodeSection.node).Nodup ∧
      ∀ s ∈ secs, s.links.Perm
        ((plot_infos.filter (fun i => i.strana_node = s.node)).map
          (fun i => i.output_file.drop output_dir.length)) := by
  have hsec : ∀ n : String,
      generate_node_section n (plot_infos.filter (fun i => i.strana_node = n)) output_dir =
        some ⟨n, (List.insertionSort plotOrder
            (plot_infos.filter (fun i => i.strana_node = n))).map
          (fun i => i.output_file.drop output_dir.length)⟩ := by
    intro n
    have hall : ∀ p ∈ List.insertionSort plotOrder
        (plot_infos.filter (fun i => i.strana_node = n)),
        relative_to p.output_file output_dir =
          some (p.output_file.drop output_dir.length) := by
      intro p hp
      have hp2 : p ∈ plot_infos :=
        List.mem_of_mem_filter ((List.perm_insertionSort plotOrder _).mem_iff.mp hp)
      unfold relative_to
      rw [if_pos (h p hp2)]
    unfold generate_node_section
    rw [seqOption_map_of_forall _ _ _ hall]
    rfl
  have hmap : ∀ l : List String,
      (l.map (fun n => (⟨n, (List.insertionSort plotOrder
          (plot_infos.filter (fun i => i.strana_node = n))).map
        (fun i => i.output_file.drop output_dir.length)⟩ : NodeSection))).map
        NodeSection.node = l := by
    intro l
    induction l with
    | nil => rfl
    | cons a l ih =>
      simp only [List.map_cons]
      rw [ih]
  refine ⟨(List.insertionSort lexLe (pdUnique (plot_infos.map PlotInfo.strana_node))).map
      (fun n => ⟨n, (List.insertionSort plotOrder
          (plot_infos.filter (fun i => i.strana_node = n))).map
        (fun i => i.output_file.drop output_dir.length)⟩), ?_, ?_, ?_, ?_, ?_⟩
  · show seqOption _ _ = _
    exact seqOption_map_of_forall _ _ _ (fun n _ => hsec n)
  · exact hmap _
  · rw [hmap]
    exact List.sorted_insertionSort _ _
  · rw [hmap]
    exact ((List.perm_insertionSort _ _).nodup_iff).mpr
      (nodup_pdUnique (plot_infos.map PlotInfo.strana_node))
  · intro s hs
    rcases List.mem_map.mp hs with ⟨n, _, rfl⟩
    exact (List.perm_insertionSort plotOrder _).map _

/-- Sample input for the claim C8 witness: two records under two nodes,
both inside the output directory. -/
def c8SampleInfos : List PlotInfo :=
  [⟨"B", "bar", MetricsField.ofList ["X"], ["output", "B", "f1.html"]⟩,
   ⟨"A", "time_series", MetricsField.ofStr "Y", ["output", "A", "f2.html"]⟩]

/-- Claim C8 witness: the amended theorem applied at the sample records. -/
theorem c8_witness :
    ∃ secs, generate_index_html c8SampleInfos ["output"] = some secs ∧
      secs.map NodeSection.node =
        List.insertionSort lexLe (pdUnique (c8SampleInfos.map PlotInfo.strana_node)) ∧
      List.Sorted lexLe (secs.map NodeSection.node) ∧
      (secs.map NodeSection.node).Nodup ∧
      ∀ s ∈ secs, s.links.Perm
        ((c8SampleInfos.filter (fun i => i.strana_node = s.node)).map
          (fun i => i.output_file.drop (["output"] : List String).length)) :=
  c8_index_structure c8SampleInfos ["output"] (by decide)

/-- Claim C10: load_event_dates.  With an empty cache: a missing file, a
read error, a missing EventDate column, or a date cell that fails to parse
each log the problem and return exactly the two default dates 2023-03-14
and 2023-03-16 (encoded 20230314 and 20230316) without caching; a
successful read returns the parsed dates sorted ascending and caches them;
with a populated cache every call returns the cached list unchanged. -/
theorem c10_event_dates :
    (load_event_dates none none =
      (default_event_dates, none, [EventLog.warnFileMissing])) ∧
    (∀ f : AuctionDateFile, f.readRaises = true →
      load_event_dates none (some f) =
        (default_event_dates, none, [EventLog.errorLoadFailed])) ∧
    (∀ f : AuctionDateFile, f.readRaises = false → f.hasEventDateColumn = false →
      load_event_dates none (some f) =
        (default_event_dates, none, [EventLog.warnNoColumn])) ∧
    (∀ f : AuctionDateFile, f.readRaises = false → f.hasEventDateColumn = true →
      seqOption id f.rows = none →
      load_event_dates none (some f) =
        (default_event_dates, none, [EventLog.errorLoadFailed])) ∧
    (∀ (f : AuctionDateFile) (ds : List ℕ), f.readRaises = false →
      f.hasEventDateColumn = true → seqOption id f.rows = some ds →
      load_event_dates none (some f) =
        (List.insertionSort (fun a b : ℕ => a ≤ b) ds,
          some (List.insertionSort (fun a b : ℕ => a ≤ b) ds),
          [EventLog.infoLoaded ds.length]) ∧
      List.Sorted (fun a b : ℕ => a ≤ b) (List.insertionSort (fun a b : ℕ => a ≤ b) ds) ∧
      (List.insertionSort (fun a b : ℕ => a ≤ b) ds).Perm ds) ∧
    (∀ (dates : List ℕ) (file : Option AuctionDateFile),
      load_event_dates (some dates) file = (dates, some dates, [])) := by
  refine ⟨rfl, ?_, ?_, ?_, ?_, ?_⟩
  · intro f hf
    simp [load_event_dates, hf]
  · intro f hf hc
    simp [load_event_dates, hf, hc]
  · intro f hf hc hrows
    simp [load_event_dates, hf, hc, hrows]
  · intro f ds hf hc hrows
    refine ⟨?_, List.sorted_insertionSort _ _, List.perm_insertionSort _ _⟩
    simp [load_event_dates, hf, hc, hrows]
  · intro dates file
    rfl

/-- Claim C10 witness: the theorem applied to a missing file, an
unparseable file, a successful read and a cached call. -/
theorem c10_witness :
    load_event_dates none (some ⟨true, true, [some 20230101]⟩) =
      (default_event_dates, none, [EventLog.errorLoadFailed]) ∧
    load_event_dates none (some ⟨false, false, [some 20230101]⟩) =
      (default_event_dates, none, [EventLog.warnNoColumn]) ∧
    load_event_dates none (some ⟨false, true, [some 20230101, none]⟩) =
      (default_event_dates, none, [EventLog.errorLoadFailed]) ∧
    load_event_dates none (some ⟨false, true, [some 20230316, some 20230314]⟩) =
      ([20230314, 20230316], some [20230314, 20230316],
        [EventLog.infoLoaded 2]) ∧
    load_event_dates (some [20230314, 20230316]) none =
      ([20230314, 20230316], some [20230314, 20230316], []) :=
  ⟨c10_event_dates.2.1 ⟨true, true, [some 20230101]⟩ rfl,
   c10_event_dates.2.2.1 ⟨false, false, [some 20230101]⟩ rfl rfl,
   c10_event_dates.2.2.2.1 ⟨false, true, [some 20230101, none]⟩ rfl rfl (by decide),
   by
     have h := (c10_event_dates.2.2.2.2.1 ⟨false, true, [some 20230316, some 20230314]⟩
       [20230316, 20230314] rfl rfl (by decide)).1
     rw [h]
     decide,
   c10_event_dates.2.2.2.2.2 [20230314, 20230316] none⟩
